import Mathlib

/-!
Verification of the BintuBot stream lifecycle manager.

This file gives a shallow embedding of the repository's core components and
proves the specification claims about them:

* `FFmpegService` (encoder argument construction, the start/stop lifecycle of
  encoder processes, the exit/error handlers and the 5-second force-kill
  timeout) — embedded as pure functions and as explicit event-step machines;
* `FileManager` (deletion, unique-name generation, extension validation) —
  embedded over a filesystem modelled as a list of paths and over Node's
  `path.extname`/`path.basename` semantics on character lists;
* the stats simulation loop in `registerRoutes` — embedded as a pure fold
  over the list of active stream ids, with the random samples passed in as
  explicit inputs.
-/

namespace BintuBot

/-! ## StreamConfig and encoder argument construction

Embedding of `FFmpegService.buildFFmpegArgs` and
`FFmpegService.getQualitySettings`. `volume / 100` in the source is
JavaScript float division; here it is embedded as exact rational division
together with a renderer `jsShowCenti` that reproduces the decimal string
JavaScript produces for hundredths. -/

structure StreamConfig where
  id : Nat
  videoPath : String
  streamKey : String
  quality : String
  mode : String
  loopVideo : Bool
  volume : Int
  isMuted : Bool
deriving DecidableEq, Repr

structure QualitySettings where
  width : Nat
  height : Nat
  bitrate : String
  bufsize : String
deriving DecidableEq, Repr

/-- Embedding of `getQualitySettings`: the fixed four-entry lookup table with
the `|| settings['720p']` fallback. -/
def getQualitySettings (quality : String) : QualitySettings :=
  if quality = "360p" then ⟨640, 360, "1000k", "2000k"⟩
  else if quality = "480p" then ⟨854, 480, "1500k", "3000k"⟩
  else if quality = "720p" then ⟨1280, 720, "3000k", "6000k"⟩
  else if quality = "1080p" then ⟨1920, 1080, "6000k", "12000k"⟩
  else ⟨1280, 720, "3000k", "6000k"⟩

/-- Decimal rendering of a rational that is an integer number of hundredths,
as JavaScript template interpolation renders `volume / 100`
(50 ↦ "0.5", 75 ↦ "0.75", 7 ↦ "0.07", 100 ↦ "1"). -/
def jsShowCenti (q : ℚ) : String :=
  let n : Int := (q * 100).num
  let sign := if n < 0 then "-" else ""
  let a := n.natAbs
  let ip := a / 100
  let fr := a % 100
  if fr = 0 then sign ++ toString ip
  else if fr % 10 = 0 then sign ++ toString ip ++ "." ++ toString (fr / 10)
  else if fr < 10 then sign ++ toString ip ++ ".0" ++ toString fr
  else sign ++ toString ip ++ "." ++ toString fr

/-- Embedding of `const volumeLevel = config.volume / 100`. -/
def volumeLevel (config : StreamConfig) : ℚ := (config.volume : ℚ) / 100

/-- Embedding of the audio filter selection (source lines 150–155):
`volume=0` when muted, else `volume=${config.volume / 100}`. -/
def audioFilterOf (config : StreamConfig) : String :=
  if config.isMuted then "volume=0"
  else "volume=" ++ jsShowCenti (volumeLevel config)

/-- The numeric gain carried by the audio filter. -/
def audioGain (config : StreamConfig) : ℚ :=
  if config.isMuted then 0 else volumeLevel config

/-- Embedding of the video filter selection (source lines 141–147). -/
def videoFilterOf (config : StreamConfig) : String :=
  if config.mode = "mobile" then
    "scale=720:1280:force_original_aspect_ratio=decrease,pad=720:1280:(ow-iw)/2:(oh-ih)/2:black"
  else
    let qs := getQualitySettings config.quality
    "scale=" ++ toString qs.width ++ ":" ++ toString qs.height ++
      ":force_original_aspect_ratio=decrease,pad=" ++ toString qs.width ++ ":" ++
      toString qs.height ++ ":(ow-iw)/2:(oh-ih)/2:black"

/-- Embedding of `buildFFmpegArgs` (source lines 131–189). -/
def buildFFmpegArgs (config : StreamConfig) : List String :=
  let rtmpUrl := "rtmp://a.rtmp.youtube.com/live2/" ++ config.streamKey
  let qs := getQualitySettings config.quality
  ["-re", "-fflags", "+genpts"]
  ++ (if config.loopVideo then ["-stream_loop", "-1"] else [])
  ++ ["-i", config.videoPath,
      "-vf", videoFilterOf config,
      "-af", audioFilterOf config,
      "-c:v", "libx264",
      "-preset", "veryfast",
      "-tune", "zerolatency",
      "-maxrate", qs.bitrate,
      "-bufsize", qs.bufsize,
      "-pix_fmt", "yuv420p",
      "-g", "60",
      "-keyint_min", "60",
      "-sc_threshold", "0",
      "-c:a", "aac",
      "-b:a", "128k",
      "-ar", "44100",
      "-ac", "2",
      "-f", "flv",
      rtmpUrl]

/-- The fixed tail of the argument list after the audio filter (proof helper,
spelled out from `buildFFmpegArgs`). -/
def argsAfterAudio (c : StreamConfig) : List String :=
  ["-c:v", "libx264", "-preset", "veryfast", "-tune", "zerolatency",
   "-maxrate", (getQualitySettings c.quality).bitrate,
   "-bufsize", (getQualitySettings c.quality).bufsize,
   "-pix_fmt", "yuv420p", "-g", "60", "-keyint_min", "60", "-sc_threshold", "0",
   "-c:a", "aac", "-b:a", "128k", "-ar", "44100", "-ac", "2", "-f", "flv",
   "rtmp://a.rtmp.youtube.com/live2/" ++ c.streamKey]

/-- Claim C4: encoder-argument construction is a pure deterministic function of
the StreamConfig (identical configs give identical argument sequences); in
mobile (portrait) orientation mode the video filter targets a 720×1280 canvas
and that filter appears as the `-vf` argument; any quality outside the fixed
four-entry table falls back to the medium-high 720p defaults
(1280×720, 3000k maxrate, 6000k bufsize). -/
theorem claim_C4_args_pure_mobile_fallback :
    (∀ c₁ c₂ : StreamConfig, c₁ = c₂ → buildFFmpegArgs c₁ = buildFFmpegArgs c₂) ∧
    (∀ c : StreamConfig, c.mode = "mobile" →
      videoFilterOf c =
        "scale=720:1280:force_original_aspect_ratio=decrease,pad=720:1280:(ow-iw)/2:(oh-ih)/2:black" ∧
      ∃ l₁ l₂, buildFFmpegArgs c = l₁ ++ ["-vf", videoFilterOf c] ++ l₂) ∧
    (∀ quality : String, quality ∉ ["360p", "480p", "720p", "1080p"] →
      getQualitySettings quality = ⟨1280, 720, "3000k", "6000k"⟩) := by
  refine ⟨fun c₁ c₂ h => by rw [h], fun c hm => ⟨by simp [videoFilterOf, hm], ?_⟩, ?_⟩
  · cases hl : c.loopVideo
    · exact ⟨["-re", "-fflags", "+genpts", "-i", c.videoPath],
        ["-af", audioFilterOf c] ++ argsAfterAudio c,
        by simp [buildFFmpegArgs, argsAfterAudio, hl]⟩
    · exact ⟨["-re", "-fflags", "+genpts", "-stream_loop", "-1", "-i", c.videoPath],
        ["-af", audioFilterOf c] ++ argsAfterAudio c,
        by simp [buildFFmpegArgs, argsAfterAudio, hl]⟩
  · intro quality hq
    simp only [List.mem_cons, List.not_mem_nil, or_false, not_or] at hq
    obtain ⟨h1, h2, h3, h4⟩ := hq
    simp [getQualitySettings, h1, h2, h3, h4]

/-- Witness for C4 at a concrete mobile config with unknown quality "999p". -/
theorem claim_C4_witness :
    videoFilterOf ⟨7, "v.mp4", "key", "999p", "mobile", false, 75, false⟩ =
      "scale=720:1280:force_original_aspect_ratio=decrease,pad=720:1280:(ow-iw)/2:(oh-ih)/2:black" ∧
    getQualitySettings "999p" = ⟨1280, 720, "3000k", "6000k"⟩ := by
  refine ⟨(claim_C4_args_pure_mobile_fallback.2.1 _ rfl).1, ?_⟩
  exact claim_C4_args_pure_mobile_fallback.2.2 "999p" (by decide)

/-- Claim C7: for every StreamConfig the audio gain in the constructed encoder
arguments is exactly 0 when the mute flag is set, and exactly `volume/100`
(linear) when it is not; the corresponding `volume=...` filter appears as the
`-af` argument of the constructed sequence. -/
theorem claim_C7_audio_gain :
    ∀ c : StreamConfig,
      (c.isMuted = true → audioGain c = 0 ∧ audioFilterOf c = "volume=0") ∧
      (c.isMuted = false → audioGain c = (c.volume : ℚ) / 100 ∧
        audioFilterOf c = "volume=" ++ jsShowCenti ((c.volume : ℚ) / 100)) ∧
      (∃ l₁ l₂, buildFFmpegArgs c = l₁ ++ ["-af", audioFilterOf c] ++ l₂) := by
  intro c
  refine ⟨fun hm => ⟨by simp [audioGain, hm], by simp [audioFilterOf, hm]⟩,
    fun hm => ⟨by simp [audioGain, volumeLevel, hm],
      by simp [audioFilterOf, volumeLevel, hm]⟩, ?_⟩
  cases hl : c.loopVideo
  · exact ⟨["-re", "-fflags", "+genpts", "-i", c.videoPath, "-vf", videoFilterOf c],
      argsAfterAudio c, by simp [buildFFmpegArgs, argsAfterAudio, hl]⟩
  · exact ⟨["-re", "-fflags", "+genpts", "-stream_loop", "-1", "-i", c.videoPath,
      "-vf", videoFilterOf c], argsAfterAudio c, by simp [buildFFmpegArgs, argsAfterAudio, hl]⟩

/-- Witness for C7: the spec's scenario config (id 7, 720p landscape,
non-looping, volume 50, unmuted) yields gain 1/2 rendered as "volume=0.5";
a muted variant yields gain 0. -/
theorem claim_C7_witness :
    audioGain ⟨7, "v.mp4", "key", "720p", "desktop", false, 50, false⟩ = (50 : ℚ) / 100 ∧
    audioFilterOf ⟨7, "v.mp4", "key", "720p", "desktop", false, 50, false⟩ = "volume=0.5" ∧
    audioGain ⟨7, "v.mp4", "key", "720p", "desktop", false, 50, true⟩ = 0 := by
  refine ⟨((claim_C7_audio_gain _).2.1 rfl).1, ?_, ((claim_C7_audio_gain _).1 rfl).1⟩
  have h := ((claim_C7_audio_gain ⟨7, "v.mp4", "key", "720p", "desktop", false, 50, false⟩).2.1 rfl).2
  rw [h]
  have h2 : ((50 : Int) : ℚ) / 100 * 100 = (50 : ℚ) := by norm_num
  simp only [jsShowCenti, h2, Rat.num_ofNat]
  decide

/-! ## Single-encoder lifecycle event machine

Embedding of the event-driven lifecycle of one spawned encoder process for one
stream id, translated from `FFmpegService.startStream`'s `exit`/`error`
handlers (part_003 lines 40–69) and `FFmpegService.stopStream`
(lines 81–117), together with the collaborators the exit handler touches
(`fileManager.cleanupStreamFiles` → `deleteFile`, `storage.updateStream`).

Node's child-process semantics embedded here: the `exit` event of a child is
emitted at most once, only after the process has died, and its dispatch runs
every registered listener once, in registration order (the `startStream`
handler first, then one handler per `stopStream` call in flight). -/

/-- Persisted stream record fields touched by the exit handler's auto-cleanup
(`storage.updateStream(id, { videoPath: null, isActive: false })`). -/
structure StreamRecord where
  videoPath : Option String
  isActive : Bool
deriving DecidableEq, Repr

/-- State of one stream id's encoder lifecycle after a successful spawn. -/
structure LifeState where
  /-- `activeStreams.has(id)` — the handle table entry for this id. -/
  inTable : Bool
  /-- the encoder process is still running -/
  alive : Bool
  /-- the process's `exit` event has been dispatched -/
  exitDispatched : Bool
  /-- exit listeners registered by `stopStream` calls in flight -/
  stopListeners : Nat
  /-- pending 5-second force-kill timers armed by `stopStream` -/
  timeouts : Nat
  /-- `cleanupCallback` is registered (it never is in this repository) -/
  cbSet : Bool
  /-- executions of the `startStream` exit handler's auto-cleanup block -/
  cleanupRuns : Nat
  /-- invocations of `cleanupCallback` by `stopStream` exit listeners -/
  cbRuns : Nat
  /-- the filesystem, as the set of existing paths -/
  files : List String
  /-- the persisted stream record for this id -/
  record : Option StreamRecord
deriving DecidableEq, Repr

/-- Events that can hit one encoder lifecycle. -/
inductive LifeEv where
  /-- a caller invokes `stopStream(id)` -/
  | stopCall
  /-- the child emits `error` (spawn/kill failure); handler lines 40–43 -/
  | errEvent
  /-- the process dies (spontaneous crash, natural end, or SIGTERM taking
  effect) -/
  | procExit
  /-- Node dispatches the `exit` event to all registered listeners -/
  | exitDispatch
  /-- a 5-second force-kill timer fires (stopStream lines 109–115) -/
  | timeoutFire
deriving DecidableEq, Repr

/-- The auto-cleanup block of the `startStream` exit handler (lines 50–65):
fetch the record, and if it still has a `videoPath`, delete that file and
clear `videoPath`/`isActive`. -/
def autoCleanup (s : LifeState) : LifeState :=
  match s.record with
  | some r =>
    match r.videoPath with
    | some vp =>
      { s with files := s.files.filter (· ≠ vp), record := some ⟨none, false⟩ }
    | none => s
  | none => s

/-- Embedding of `stopStream` up to its first suspension (lines 81–115):
with no handle it returns `false` immediately and touches nothing; with a
handle it registers one more `exit` listener, sends SIGTERM and arms the
5-second force-kill timer (the returned `true` stands for the promise that
resolves true later). -/
def stopStreamStep (s : LifeState) : LifeState × Bool :=
  if s.inTable then
    ({ s with stopListeners := s.stopListeners + 1, timeouts := s.timeouts + 1 }, true)
  else (s, false)

/-- One event step of the lifecycle machine. -/
def stepEv (s : LifeState) : LifeEv → LifeState
  | .stopCall => (stopStreamStep s).1
  | .errEvent => { s with inTable := false }
  | .procExit => { s with alive := false }
  | .exitDispatch =>
    let s₁ := autoCleanup { s with
      inTable := false, exitDispatched := true, cleanupRuns := s.cleanupRuns + 1 }
    { s₁ with cbRuns := s₁.cbRuns + (if s₁.cbSet then s₁.stopListeners else 0) }
  | .timeoutFire =>
    let s₁ := { s with timeouts := s.timeouts - 1 }
    if s₁.inTable then { s₁ with inTable := false, alive := false } else s₁

/-- Guard deciding whether an event can occur in a state: a process dies only
while alive, its `exit` event dispatches exactly once and only after death,
and a force-kill timer fires only while armed. -/
def okEv (s : LifeState) : LifeEv → Bool
  | .stopCall => true
  | .errEvent => true
  | .procExit => s.alive
  | .exitDispatch => !s.alive && !s.exitDispatched
  | .timeoutFire => decide (0 < s.timeouts)

/-- Run a sequence of events. -/
def runEvents (s : LifeState) : List LifeEv → LifeState
  | [] => s
  | e :: es => runEvents (stepEv s e) es

/-- A sequence of events is admissible from a state. -/
def validEvents (s : LifeState) : List LifeEv → Bool
  | [] => true
  | e :: es => okEv s e && validEvents (stepEv s e) es

/-- State right after `startStream` has spawned the process and stored the
handle. -/
def initLife (cb : Bool) (fs : List String) (rec : Option StreamRecord) : LifeState :=
  { inTable := true, alive := true, exitDispatched := false, stopListeners := 0,
    timeouts := 0, cbSet := cb, cleanupRuns := 0, cbRuns := 0, files := fs,
    record := rec }

lemma autoCleanup_cleanupRuns (s : LifeState) :
    (autoCleanup s).cleanupRuns = s.cleanupRuns := by
  rcases hr : s.record with _ | r
  · simp [autoCleanup, hr]
  · rcases hp : r.videoPath with _ | vp
    · simp [autoCleanup, hr, hp]
    · simp [autoCleanup, hr, hp]

lemma autoCleanup_exitDispatched (s : LifeState) :
    (autoCleanup s).exitDispatched = s.exitDispatched := by
  rcases hr : s.record with _ | r
  · simp [autoCleanup, hr]
  · rcases hp : r.videoPath with _ | vp
    · simp [autoCleanup, hr, hp]
    · simp [autoCleanup, hr, hp]

lemma cleanupRuns_invariant :
    ∀ (tr : List LifeEv) (s : LifeState), validEvents s tr = true →
      s.cleanupRuns = (if s.exitDispatched then 1 else 0) →
      (runEvents s tr).cleanupRuns =
        (if (runEvents s tr).exitDispatched then 1 else 0) := by
  intro tr
  induction tr with
  | nil => intro s _ h; exact h
  | cons e es ih =>
    intro s hv hinv
    rw [validEvents, Bool.and_eq_true] at hv
    refine ih (stepEv s e) hv.2 ?_
    cases e with
    | stopCall =>
      simp only [stepEv, stopStreamStep]
      split <;> simpa using hinv
    | errEvent => simpa [stepEv] using hinv
    | procExit => simpa [stepEv] using hinv
    | exitDispatch =>
      have hg := hv.1
      simp only [okEv, Bool.and_eq_true, Bool.not_eq_true'] at hg
      have h0 : s.cleanupRuns = 0 := by rw [hinv, hg.2]; rfl
      simp only [stepEv, autoCleanup_cleanupRuns, autoCleanup_exitDispatched]
      simp [h0]
    | timeoutFire =>
      simp only [stepEv]
      split <;> simpa using hinv

/-- Claim C1: for every lifecycle of a spawned encoder process, the cleanup
routine (the exit handler's auto-cleanup block) runs exactly once per
termination and never otherwise, regardless of how termination happens: along
every admissible interleaving of `stopStream` calls, spontaneous exits,
error events and 5-second force-kill timers, the auto-cleanup count is 1
exactly when the process's single `exit` dispatch has happened, so whichever
competing path wins, the others are no-ops with respect to cleanup. -/
theorem claim_C1_cleanup_exactly_once :
    ∀ (cb : Bool) (fs : List String) (rec : Option StreamRecord) (tr : List LifeEv),
      validEvents (initLife cb fs rec) tr = true →
      (runEvents (initLife cb fs rec) tr).cleanupRuns =
        (if (runEvents (initLife cb fs rec) tr).exitDispatched then 1 else 0) := by
  intro cb fs rec tr hv
  exact cleanupRuns_invariant tr (initLife cb fs rec) hv rfl

/-- Witness for C1: the spec's forced-kill scenario — `stop(7)`, the encoder
ignores SIGTERM for 5 seconds, the timer fires SIGKILL, the exit event then
dispatches — is an admissible trace on which cleanup runs exactly once. -/
theorem claim_C1_witness :
    validEvents (initLife false ["v.mp4"] (some ⟨some "v.mp4", true⟩))
      [.stopCall, .timeoutFire, .exitDispatch] = true ∧
    (runEvents (initLife false ["v.mp4"] (some ⟨some "v.mp4", true⟩))
      [.stopCall, .timeoutFire, .exitDispatch]).cleanupRuns = 1 := by
  refine ⟨by decide, ?_⟩
  rw [claim_C1_cleanup_exactly_once false ["v.mp4"] (some ⟨some "v.mp4", true⟩)
    [.stopCall, .timeoutFire, .exitDispatch] (by decide)]
  decide

/-- Claim C6: `stopStream` on an id with no active handle returns `false` and
leaves the whole state — handle table, callback registration, cleanup
counters, files and persisted records — unchanged. -/
theorem claim_C6_stop_without_handle_noop :
    ∀ s : LifeState, s.inTable = false → stopStreamStep s = (s, false) := by
  intro s h
  simp [stopStreamStep, h]

/-- Witness for C6 at a concrete state with no handle. -/
theorem claim_C6_witness :
    stopStreamStep ⟨false, false, true, 0, 0, false, 1, 0, ["a.mp4"], some ⟨none, false⟩⟩ =
      (⟨false, false, true, 0, 0, false, 1, 0, ["a.mp4"], some ⟨none, false⟩⟩, false) :=
  claim_C6_stop_without_handle_noop _ rfl

/-! ## Restart (start-while-active) semantics

Embedding of a second `startStream(config)` call for an id whose encoder is
still running (part_003 lines 20–79 together with `stopStream` lines 81–117).
The handle table entry is tracked as `Option Bool`: `some false` is the
replaced (old) process's handle, `some true` the new one, `none` no handle —
`activeStreams.delete(config.id)` deletes by id, whichever process the entry
currently belongs to, exactly as in the source.

Scheduling facts of Node embedded in the two scenario traces below:
the continuation of `await stopStream(...)` resumes on the microtask queue,
so it runs before any later-delivered child `exit` event; a SIGKILLed child's
`exit` event is delivered only after the kill, hence after the timeout
callback that issued it and after the microtasks it unblocked. -/

/-- Observable ordering of the two events claim C2 relates. -/
inductive RestartObs where
  /-- the replaced process's exit handler ran its cleanup -/
  | oldCleanupFired
  /-- `activeStreams.set(config.id, newProcess)` made the new handle visible -/
  | newHandleSet
deriving DecidableEq, Repr

/-- State of the restart interaction between the old and the new process. -/
structure RestartState where
  /-- the handle table entry: `some false` old process, `some true` new -/
  table : Option Bool
  /-- the replaced process is still running -/
  oldAlive : Bool
  /-- `stopStream` registered its extra exit listener on the old process -/
  stopListener : Bool
  /-- the 5-second force-kill timer of the stop is armed -/
  timeoutArmed : Bool
  /-- the promise returned by `stopStream` has resolved -/
  stopResolved : Bool
  /-- log of the observable events, in order of occurrence -/
  log : List RestartObs
deriving DecidableEq, Repr

/-- Before the second `startStream`: the old process holds the handle. -/
def restartInit : RestartState :=
  { table := some false, oldAlive := true, stopListener := false,
    timeoutArmed := false, stopResolved := false, log := [] }

/-- `startStream` lines 23–25 entering `stopStream` lines 87–115's synchronous
part: register the extra exit listener, send SIGTERM, arm the 5s timer. -/
def stopBegin (s : RestartState) : RestartState :=
  { s with stopListener := true, timeoutArmed := true }

/-- The old process dies from the SIGTERM within the grace period. -/
def oldExitsGraceful (s : RestartState) : RestartState :=
  { s with oldAlive := false }

/-- The 5-second timer fires (stopStream lines 109–115): if the id is still in
the table, SIGKILL the old process, delete the entry and resolve the stop
promise — without running any cleanup. -/
def forceKillTimeout (s : RestartState) : RestartState :=
  if s.timeoutArmed then
    if s.table.isSome then
      { s with
          oldAlive := false, table := none, stopResolved := true,
          timeoutArmed := false }
    else { s with timeoutArmed := false }
  else s

/-- Dispatch of the old process's `exit` event: the `startStream` exit handler
(lines 45–69) runs `activeStreams.delete(config.id)` — unconditionally, by id
— and fires the auto-cleanup; then the `stopStream` exit listener (lines
88–103), if registered, deletes the id again and resolves the stop promise. -/
def oldExitDispatch (s : RestartState) : RestartState :=
  let s₁ := { s with table := none, log := s.log ++ [RestartObs.oldCleanupFired] }
  if s.stopListener then { s₁ with table := none, stopResolved := true } else s₁

/-- `startStream` resumed after `await stopStream(config.id)` (lines 28–74):
the video file exists, spawn the new process and store its handle. -/
def startAfterStop (s : RestartState) : RestartState :=
  { s with table := some true, log := s.log ++ [RestartObs.newHandleSet] }

/-- The forced-kill restart schedule: the old encoder ignores SIGTERM, the
timer fires and resolves the stop, `startStream` resumes (microtask) and
stores the new handle, and only then is the SIGKILLed old process's `exit`
event delivered. -/
def restartForced : RestartState :=
  oldExitDispatch (startAfterStop (forceKillTimeout (stopBegin restartInit)))

/-- The graceful restart schedule: the old encoder dies from SIGTERM, its
`exit` dispatch runs cleanup and resolves the stop, then `startStream`
resumes and stores the new handle. -/
def restartGraceful : RestartState :=
  startAfterStop (oldExitDispatch (oldExitsGraceful (stopBegin restartInit)))

/-- Claim C2 (code bug, evaluated at the failing schedule): when the second
`startStream` replaces an encoder that has to be force-killed, the old
process's exit handler deletes the id after the new handle was stored, so the
restart ends with no active handle at all — not exactly one — and the old
cleanup fires only after the new handle became visible. On the graceful
schedule the claim's expected outcome does hold: one handle (the new one) and
cleanup before visibility. -/
theorem claim_C2_restart_forced_kill_loses_handle :
    restartForced.table = none ∧
    restartForced.log = [RestartObs.newHandleSet, RestartObs.oldCleanupFired] ∧
    restartGraceful.table = some true ∧
    restartGraceful.log = [RestartObs.oldCleanupFired, RestartObs.newHandleSet] := by
  decide

/-! ## startStream return value and frame (claim C3)

Embedding of `startStream`'s control flow (part_003 lines 20–79) as a function
of the environment facts it consults: whether `fs.existsSync(config.videoPath)`
holds, whether `spawn` raises synchronously (caught by the `try`), and whether
the child emits `error` during the 1-second grace delay. -/

/-- Environment facts consumed by one `startStream` call. -/
structure StartEnv where
  /-- `fs.existsSync(config.videoPath)` -/
  fileExists : Bool
  /-- `spawn` raises synchronously (caught by the surrounding `try`) -/
  spawnThrows : Bool
  /-- the child emits `error` during the 1-second grace delay (handler lines
  40–43 removes the handle; nothing makes `startStream` return `false`) -/
  spawnErrorEvent : Bool
deriving DecidableEq, Repr

/-- Manager state for `config.id` that a `startStream` call can touch. -/
structure MgrState where
  /-- `activeStreams.has(config.id)` -/
  hasHandle : Bool
  /-- completed `stopStream` teardowns of a previously active encoder -/
  stops : Nat
  /-- `spawn` invocations -/
  spawns : Nat
deriving DecidableEq, Repr

/-- Embedding of `startStream` (lines 20–79): stop any existing stream, then
validate the file (throw → caught → `false`), then spawn, store the handle,
register the handlers, wait the 1-second grace delay and return `true`. -/
def startStream (env : StartEnv) (s : MgrState) : Bool × MgrState :=
  let s₁ := if s.hasHandle then { s with hasHandle := false, stops := s.stops + 1 } else s
  if !env.fileExists then (false, s₁)
  else if env.spawnThrows then (false, s₁)
  else
    let s₂ := { s₁ with spawns := s₁.spawns + 1, hasHandle := true }
    let s₃ := if env.spawnErrorEvent then { s₂ with hasHandle := false } else s₂
    (true, s₃)

/-- Counterexample to claim C3 as stated: (a) when the process fails to spawn
and the `error` event fires within the 1-second grace delay, `startStream`
still returns `true` (the claim demands failure); (b) on a missing source
file with an encoder already active for the id, `startStream` does mutate
state — it stops the existing encoder — before returning failure (the claim
demands no state mutation). -/
theorem claim_C3_counterexample :
    (startStream ⟨true, false, true⟩ ⟨false, 0, 0⟩).1 = true ∧
    (startStream ⟨false, false, false⟩ ⟨true, 0, 0⟩).2 ≠ (⟨true, 0, 0⟩ : MgrState) := by
  decide

/-- Claim C3 as amended: `startStream` returns failure when the source file is
missing, and on that path no process is spawned and — provided no handle
already existed for the id — no state is mutated (an existing handle is
stopped before validation); when the file exists and `spawn` does not raise
synchronously, `startStream` returns success after the grace delay without
waiting for encoder output, even if the process failed to spawn and emitted
`error` within the delay — that error only removes the handle. -/
theorem claim_C3_start_failure_semantics :
    ∀ (env : StartEnv) (s : MgrState),
      (env.fileExists = false →
        (startStream env s).1 = false ∧
        (startStream env s).2.spawns = s.spawns ∧
        (s.hasHandle = false → (startStream env s).2 = s)) ∧
      (env.fileExists = true → env.spawnThrows = false →
        (startStream env s).1 = true ∧
        (env.spawnErrorEvent = true → (startStream env s).2.hasHandle = false)) := by
  intro env s
  constructor
  · intro hf
    refine ⟨by simp [startStream, hf], ?_, ?_⟩
    · cases hh : s.hasHandle <;> simp [startStream, hf, hh]
    · intro hh
      simp [startStream, hf, hh]
  · intro hf ht
    refine ⟨by simp [startStream, hf, ht], ?_⟩
    intro he
    simp [startStream, hf, ht, he]

/-- Witness for the amended C3: a missing file with no active handle gives a
failure with untouched state and zero spawns; an existing file with a clean
spawn gives success. -/
theorem claim_C3_witness :
    (startStream ⟨false, false, false⟩ ⟨false, 0, 0⟩).1 = false ∧
    (startStream ⟨false, false, false⟩ ⟨false, 0, 0⟩).2 = (⟨false, 0, 0⟩ : MgrState) ∧
    (startStream ⟨true, false, false⟩ ⟨false, 0, 0⟩).1 = true := by
  refine ⟨((claim_C3_start_failure_semantics ⟨false, false, false⟩ ⟨false, 0, 0⟩).1 rfl).1,
    ((claim_C3_start_failure_semantics ⟨false, false, false⟩ ⟨false, 0, 0⟩).1 rfl).2.2 rfl,
    ((claim_C3_start_failure_semantics ⟨true, false, false⟩ ⟨false, 0, 0⟩).2 rfl rfl).1⟩

/-! ## Stats simulation loop (claim C5)

Embedding of the `setInterval` body in `registerRoutes`
(src/server/routes.ts lines 326–356): every 5 seconds, for each id in
`ffmpegService.getActiveStreamIds()`, if its stats record exists and its
connection status is "connected", perturb the viewer count, advance uptime by
5, resample ping, persist, and broadcast one `statsUpdate` event. The two
`Math.floor(Math.random() * 20)` samples are passed in as explicit functions
`rv`, `rp` from stream id to the sampled natural number. -/

/-- The stats record fields the loop reads and writes. -/
structure TickStats where
  viewerCount : Int
  uptime : Int
  ping : Int
  connectionStatus : String
deriving DecidableEq, Repr

/-- One stream's update inside the tick: viewer count perturbed by the signed
delta `rv - 10` and floored at zero, uptime advanced by the 5-second period,
ping resampled as `15 + rp`, status untouched (the broadcast hard-codes
"connected", which is the guarded value). -/
def tickOne (rv rp : Nat) (st : TickStats) : TickStats :=
  { viewerCount := max 0 (st.viewerCount + ((rv : Int) - 10)),
    uptime := st.uptime + 5,
    ping := 15 + (rp : Int),
    connectionStatus := st.connectionStatus }

/-- Embedding of the tick body: fold over the active ids, updating the stats
store (a function from id to optional record) and collecting the broadcast
`statsUpdate` events in order. -/
def statsTick (ids : List Nat) (stats : Nat → Option TickStats)
    (rv rp : Nat → Nat) : (Nat → Option TickStats) × List (Nat × TickStats) :=
  match ids with
  | [] => (stats, [])
  | id :: rest =>
    match stats id with
    | some st =>
      if st.connectionStatus = "connected" then
        let st₁ := tickOne (rv id) (rp id) st
        let stats₁ := fun j => if j = id then some st₁ else stats j
        let r := statsTick rest stats₁ rv rp
        (r.1, (id, st₁) :: r.2)
      else statsTick rest stats rv rp
    | none => statsTick rest stats rv rp

lemma statsTick_not_mem (ids : List Nat) (stats : Nat → Option TickStats)
    (rv rp : Nat → Nat) (id : Nat) (h : id ∉ ids) :
    (statsTick ids stats rv rp).1 id = stats id ∧
    (statsTick ids stats rv rp).2.countP (fun e => e.1 == id) = 0 := by
  induction ids generalizing stats with
  | nil => simp [statsTick]
  | cons y rest ih =>
    have hy : id ≠ y := fun hEq => h (hEq ▸ List.mem_cons_self y rest)
    have hrest : id ∉ rest := fun hm => h (List.mem_cons_of_mem y hm)
    rcases hs : stats y with _ | st
    · simpa [statsTick, hs] using ih stats hrest
    · by_cases hc : st.connectionStatus = "connected"
      · have ihr := ih (fun j => if j = y then some (tickOne (rv y) (rp y) st) else stats j) hrest
        simp only [statsTick, hs, hc, if_true]
        refine ⟨?_, ?_⟩
        · rw [ihr.1]
          simp [hy]
        · simp only [List.countP_cons]
          have : ((y, tickOne (rv y) (rp y) st).1 == id) = false := by
            simp [hy.symm]
          simp [this, ihr.2]
      · simpa [statsTick, hs, hc] using ih stats hrest

/-- Claim C5: one tick of the stats loop, for every active stream id
(appearing once in the active list, as Map keys do) whose record has
connection status "connected", persists exactly the `tickOne` update —
uptime advanced by exactly 5, viewer count `max 0 (old + (rv - 10)) ≥ 0` —
and publishes exactly one `statsUpdate` event for that id; a stream whose
status is not "connected" keeps its record unchanged and gets no event. -/
theorem claim_C5_stats_tick :
    ∀ (ids : List Nat) (stats : Nat → Option TickStats) (rv rp : Nat → Nat)
      (id : Nat) (st : TickStats),
      (ids.count id = 1 → stats id = some st → st.connectionStatus = "connected" →
        (statsTick ids stats rv rp).1 id = some (tickOne (rv id) (rp id) st) ∧
        (tickOne (rv id) (rp id) st).uptime = st.uptime + 5 ∧
        (tickOne (rv id) (rp id) st).viewerCount =
          max 0 (st.viewerCount + ((rv id : Int) - 10)) ∧
        0 ≤ (tickOne (rv id) (rp id) st).viewerCount ∧
        (statsTick ids stats rv rp).2.countP (fun e => e.1 == id) = 1) ∧
      (stats id = some st → st.connectionStatus ≠ "connected" →
        (statsTick ids stats rv rp).1 id = stats id ∧
        (statsTick ids stats rv rp).2.countP (fun e => e.1 == id) = 0) := by
  intro ids
  induction ids with
  | nil =>
    intro stats rv rp id st
    exact ⟨fun h => by simp at h, fun _ _ => by simp [statsTick]⟩
  | cons y rest ih =>
    intro stats rv rp id st
    constructor
    · intro hcount hst hconn
      by_cases hy : y = id
      · subst hy
        rw [List.count_cons_self] at hcount
        have hrest : y ∉ rest := by
          rw [← List.count_eq_zero]
          omega
        have hnm := statsTick_not_mem rest
          (fun j => if j = y then some (tickOne (rv y) (rp y) st) else stats j) rv rp y hrest
        simp only [statsTick, hst, hconn, if_true]
        refine ⟨?_, rfl, rfl, le_max_left 0 _, ?_⟩
        · rw [hnm.1]; simp
        · simp only [List.countP_cons]
          simp [hnm.2]
      · have hcount' : rest.count id = 1 := by
          rwa [List.count_cons_of_ne (fun h => hy h.symm)] at hcount
        rcases hs : stats y with _ | sty
        · simpa [statsTick, hs] using
            ((ih stats rv rp id st).1 hcount' hst hconn)
        · have hy' : id ≠ y := fun h => hy h.symm
          by_cases hc : sty.connectionStatus = "connected"
          · have hst' : (fun j => if j = y then some (tickOne (rv y) (rp y) sty) else stats j) id
                = some st := by simp [hy', hst]
            have := (ih (fun j => if j = y then some (tickOne (rv y) (rp y) sty) else stats j)
              rv rp id st).1 hcount' hst' hconn
            simp only [statsTick, hs, hc, if_true]
            refine ⟨this.1, rfl, rfl, le_max_left 0 _, ?_⟩
            simp only [List.countP_cons]
            have hne : ((y, tickOne (rv y) (rp y) sty).1 == id) = false := by simp [hy]
            simp [hne, this.2.2.2.2]
          · simpa [statsTick, hs, hc] using
              ((ih stats rv rp id st).1 hcount' hst hconn)
    · intro hst hconn
      by_cases hy : y = id
      · subst hy
        have h2 := (ih stats rv rp y st).2 hst hconn
        simp only [statsTick, hst]
        have : ¬(st.connectionStatus = "connected") := hconn
        simp only [this, if_false]
        exact ⟨h2.1.trans hst, h2.2⟩
      · have hy' : id ≠ y := fun h => hy h.symm
        rcases hs : stats y with _ | sty
        · simpa [statsTick, hs] using (ih stats rv rp id st).2 hst hconn
        · by_cases hc : sty.connectionStatus = "connected"
          · have hst' : (fun j => if j = y then some (tickOne (rv y) (rp y) sty) else stats j) id
                = some st := by simp [hy', hst]
            have := (ih (fun j => if j = y then some (tickOne (rv y) (rp y) sty) else stats j)
              rv rp id st).2 hst' hconn
            simp only [statsTick, hs, hc, if_true]
            refine ⟨by rw [this.1]; simp [hy'], ?_⟩
            simp only [List.countP_cons]
            have hne : ((y, tickOne (rv y) (rp y) sty).1 == id) = false := by simp [hy]
            simp [hne, this.2]
          · simpa [statsTick, hs, hc] using (ih stats rv rp id st).2 hst hconn

/-- Witness for C5: the spec's scenario — active stream 7, connected, uptime
100 — advances uptime to 105, keeps viewer count ≥ 0, and produces exactly
one statsUpdate event. -/
theorem claim_C5_witness :
    (statsTick [7] (fun j => if j = 7 then some ⟨12, 100, 20, "connected"⟩ else none)
      (fun _ => 13) (fun _ => 4)).1 7 = some ⟨15, 105, 19, "connected"⟩ ∧
    (statsTick [7] (fun j => if j = 7 then some ⟨12, 100, 20, "connected"⟩ else none)
      (fun _ => 13) (fun _ => 4)).2.countP (fun e => e.1 == 7) = 1 := by
  have h := (claim_C5_stats_tick [7]
    (fun j => if j = 7 then some ⟨12, 100, 20, "connected"⟩ else none)
    (fun _ => 13) (fun _ => 4) 7 ⟨12, 100, 20, "connected"⟩).1
    (by decide) (by simp) rfl
  refine ⟨?_, h.2.2.2.2⟩
  rw [h.1]
  decide

/-! ## FileManager (claims C8, C9, C10)

Embedding of `FileManager.deleteFile`, `FileManager.isValidVideoFile` and
`FileManager.generateUniqueFilename` (src/server/services/file-manager.ts).
The filesystem is the list of existing paths. Node's `path.extname` and
`path.basename` (posix) are embedded on character lists: the basename is the
last slash-separated portion after trailing slashes are dropped, and the
extension runs from the portion's last dot, unless that dot is its first
character or the portion is "..". -/

/-- Embedding of `deleteFile`: unlink the path if it exists and report `true`,
otherwise report `false`; never raises. -/
def deleteFile (fs : List String) (filePath : String) : Bool × List String :=
  if filePath ∈ fs then (true, fs.filter (· ≠ filePath)) else (false, fs)

/-- Claim C8: `deleteFile` returns `false` rather than raising when the path
does not exist, and deletion is idempotent — deleting the same path a second
time returns `false` and leaves the filesystem unchanged. -/
theorem claim_C8_delete_idempotent :
    ∀ (fs : List String) (p : String),
      (p ∉ fs → deleteFile fs p = (false, fs)) ∧
      deleteFile (deleteFile fs p).2 p = (false, (deleteFile fs p).2) := by
  intro fs p
  constructor
  · intro h
    simp [deleteFile, h]
  · by_cases h : p ∈ fs
    · have hnot : p ∉ fs.filter (· ≠ p) := by simp [List.mem_filter]
      simp [deleteFile, h, hnot]
    · simp [deleteFile, h]

/-- Witness for C8 at a concrete filesystem. -/
theorem claim_C8_witness :
    deleteFile ["a.mp4"] "b.mp4" = (false, ["a.mp4"]) ∧
    deleteFile (deleteFile ["a.mp4", "b.mp4"] "b.mp4").2 "b.mp4" =
      (false, (deleteFile ["a.mp4", "b.mp4"] "b.mp4").2) :=
  ⟨(claim_C8_delete_idempotent ["a.mp4"] "b.mp4").1 (by decide),
    (claim_C8_delete_idempotent ["a.mp4", "b.mp4"] "b.mp4").2⟩

/-- Drop the trailing '/' characters of a path (Node ignores them). -/
def rstripSlashes (cs : List Char) : List Char :=
  ((cs.reverse).dropWhile (· = '/')).reverse

/-- The last slash-separated portion of a path, Node-style. -/
def lastSegment (cs : List Char) : List Char :=
  ((rstripSlashes cs).reverse.takeWhile (· ≠ '/')).reverse

/-- Extension of a path portion: from its last '.' to the end, empty when the
portion has no dot, only a leading dot, or is "..". -/
def extnameCore (b : List Char) : List Char :=
  if b = ['.', '.'] then []
  else if '.' ∈ b then
    if b = '.' :: (b.reverse.takeWhile (· ≠ '.')).reverse then []
    else '.' :: (b.reverse.takeWhile (· ≠ '.')).reverse
  else []

/-- Embedding of Node's `path.extname`. -/
def extname (s : String) : String :=
  ⟨extnameCore (lastSegment s.data)⟩

/-- JavaScript's `toLowerCase` on the strings involved here (ASCII). -/
def toLowerCase (s : String) : String := ⟨s.data.map Char.toLower⟩

/-- The extension allow-list of `isValidVideoFile` (file-manager.ts line 63). -/
def allowedExtensions : List String := [".mp4", ".mov", ".avi", ".mkv", ".webm"]

/-- Embedding of `isValidVideoFile`: membership of the lowercased extension in
the allow-list. -/
def isValidVideoFile (filename : String) : Bool :=
  allowedExtensions.contains (toLowerCase (extname filename))

/-- Core of Node's two-argument `path.basename(name, ext)` on the last
portion: drop the suffix `e` when the portion ends with it and is not equal
to it. -/
def basenameMinusExtCore (b e : List Char) : List Char :=
  if b ≠ e ∧ e.length ≤ b.length ∧ b.drop (b.length - e.length) = e then
    b.take (b.length - e.length)
  else b

/-- Embedding of Node's two-argument `path.basename(name, ext)`. -/
def basenameMinusExt (s ext : String) : String :=
  ⟨basenameMinusExtCore (lastSegment s.data) ext.data⟩

/-- Embedding of `generateUniqueFilename`: `${name}_${timestamp}_${random}${ext}`
with `ext = path.extname(originalName)` and
`name = path.basename(originalName, ext)`. The timestamp (`Date.now()`) and
random token (`Math.random().toString(36).substring(2, 8)`) are passed in as
strings. -/
def generateUniqueFilename (timestamp random : String) (originalName : String) : String :=
  let ext := extname originalName
  let name := basenameMinusExt originalName ext
  name ++ "_" ++ timestamp ++ "_" ++ random ++ ext

/-- Claim C9: `isValidVideoFile` is case-insensitive and decided solely by
membership of the lowercased extension in the fixed allow-list: filenames
whose extensions agree up to case get the same verdict, and the verdict is
`true` exactly when the lowercased extension is in the list. -/
theorem claim_C9_extension_allowlist :
    ∀ n₁ n₂ : String,
      (toLowerCase (extname n₁) = toLowerCase (extname n₂) →
        isValidVideoFile n₁ = isValidVideoFile n₂) ∧
      (isValidVideoFile n₁ = true ↔ toLowerCase (extname n₁) ∈ allowedExtensions) := by
  intro n₁ n₂
  constructor
  · intro h
    simp [isValidVideoFile, h]
  · simp [isValidVideoFile, List.contains]

/-- Witness for C9: "Movie.MP4" and "movie.mp4" agree up to extension case and
get the same (positive) verdict. -/
theorem claim_C9_witness :
    isValidVideoFile "Movie.MP4" = isValidVideoFile "movie.mp4" ∧
    isValidVideoFile "Movie.MP4" = true := by
  refine ⟨(claim_C9_extension_allowlist "Movie.MP4" "movie.mp4").1 (by decide), ?_⟩
  rw [(claim_C9_extension_allowlist "Movie.MP4" "movie.mp4").2]
  decide

lemma dropWhile_of_all_neg {α : Type} {p : α → Bool} :
    ∀ l : List α, (∀ c ∈ l, p c = false) → l.dropWhile p = l
  | [], _ => rfl
  | a :: l, h => by
    rw [List.dropWhile_cons, h a (List.mem_cons_self a l)]
    simp

lemma lastSegment_no_slash (cs : List Char) : ∀ c ∈ lastSegment cs, c ≠ '/' := by
  intro c hc
  unfold lastSegment at hc
  simpa using List.mem_takeWhile_imp (List.mem_reverse.mp hc)

lemma rstripSlashes_of_no_slash (cs : List Char) (h : ∀ c ∈ cs, c ≠ '/') :
    rstripSlashes cs = cs := by
  unfold rstripSlashes
  have h1 : cs.reverse.dropWhile (· = '/') = cs.reverse :=
    dropWhile_of_all_neg cs.reverse
      (fun c hc => by simp [h c (List.mem_reverse.mp hc)])
  rw [h1, List.reverse_reverse]

lemma lastSegment_of_no_slash (cs : List Char) (h : ∀ c ∈ cs, c ≠ '/') :
    lastSegment cs = cs := by
  unfold lastSegment
  rw [rstripSlashes_of_no_slash cs h]
  have h2 : cs.reverse.takeWhile (· ≠ '/') = cs.reverse :=
    List.takeWhile_eq_self_iff.mpr
      (fun c hc => by simp [h c (List.mem_reverse.mp hc)])
  rw [h2, List.reverse_reverse]

lemma extnameCore_of_no_dot (b : List Char) (h : '.' ∉ b) : extnameCore b = [] := by
  have hA : b ≠ ['.', '.'] := by
    intro hEq
    exact h (hEq ▸ List.mem_cons_self '.' ['.'])
  simp [extnameCore, hA, h]

lemma extnameCore_append (P t : List Char) (hne : P ≠ [])
    (hP : '.' ∉ P) (ht : '.' ∉ t) :
    extnameCore (P ++ '.' :: t) = '.' :: t := by
  have hmem : '.' ∈ P ++ '.' :: t :=
    List.mem_append_right _ (List.mem_cons_self _ _)
  have hA : P ++ '.' :: t ≠ ['.', '.'] := by
    intro hEq
    rcases P with _ | ⟨a, P'⟩
    · exact hne rfl
    · rw [List.cons_append] at hEq
      have ha : a = '.' := (List.cons.injEq _ _ _ _).mp hEq |>.1
      exact hP (by rw [ha]; exact List.mem_cons_self _ _)
  have htW : ((P ++ '.' :: t).reverse.takeWhile (· ≠ '.')).reverse = t := by
    rw [List.reverse_append, List.reverse_cons, List.append_assoc,
      List.singleton_append]
    have hpos : ∀ c ∈ t.reverse, decide (c ≠ '.') = true := fun c hc =>
      decide_eq_true (fun hEq => ht (hEq ▸ List.mem_reverse.mp hc))
    rw [List.takeWhile_append_of_pos hpos, List.takeWhile_cons]
    simp
  have hcond : ¬(P ++ '.' :: t = '.' :: t) := by
    intro hEq
    have hlen := congrArg List.length hEq
    simp only [List.length_append, List.length_cons] at hlen
    have hz : P.length = 0 := by omega
    exact hne (List.length_eq_zero.mp hz)
  unfold extnameCore
  rw [if_neg hA, if_pos hmem, htW, if_neg hcond]

lemma extname_shape (s : String) :
    extname s = "" ∨
    ∃ t : List Char, (extname s).data = '.' :: t ∧ '.' ∉ t ∧ ∀ c ∈ t, c ≠ '/' := by
  by_cases h1 : lastSegment s.data = ['.', '.']
  · left
    show (⟨extnameCore (lastSegment s.data)⟩ : String) = ""
    rw [h1]
    decide
  · by_cases h2 : '.' ∈ lastSegment s.data
    · by_cases h3 : lastSegment s.data =
        '.' :: ((lastSegment s.data).reverse.takeWhile (· ≠ '.')).reverse
      · left
        show (⟨extnameCore (lastSegment s.data)⟩ : String) = ""
        unfold extnameCore
        rw [if_neg h1, if_pos h2, if_pos h3]
      · right
        refine ⟨((lastSegment s.data).reverse.takeWhile (· ≠ '.')).reverse, ?_, ?_, ?_⟩
        · show extnameCore (lastSegment s.data) = _
          unfold extnameCore
          rw [if_neg h1, if_pos h2, if_neg h3]
        · intro hc
          simpa using List.mem_takeWhile_imp (List.mem_reverse.mp hc)
        · intro c hc
          have hc1 : c ∈ (lastSegment s.data).reverse.takeWhile (· ≠ '.') :=
            List.mem_reverse.mp hc
          have hc2 : c ∈ (lastSegment s.data).reverse := by
            rw [← List.takeWhile_append_dropWhile (· ≠ '.') (lastSegment s.data).reverse]
            exact List.mem_append_left _ hc1
          exact lastSegment_no_slash s.data c (List.mem_reverse.mp hc2)
    · left
      show (⟨extnameCore (lastSegment s.data)⟩ : String) = ""
      rw [extnameCore_of_no_dot _ h2]

lemma basenameMinusExt_no_slash (s ext : String) :
    ∀ c ∈ (basenameMinusExt s ext).data, c ≠ '/' := by
  intro c hc
  have hc' : c ∈ basenameMinusExtCore (lastSegment s.data) ext.data := hc
  unfold basenameMinusExtCore at hc'
  split at hc'
  · exact lastSegment_no_slash s.data c (List.mem_of_mem_take hc')
  · exact lastSegment_no_slash s.data c hc'

lemma extname_append_sepFree (pre : List Char) (E : String)
    (hne : pre ≠ []) (hdot : '.' ∉ pre) (hslash : ∀ c ∈ pre, c ≠ '/')
    (hE : E = "" ∨
      ∃ t : List Char, E.data = '.' :: t ∧ '.' ∉ t ∧ ∀ c ∈ t, c ≠ '/') :
    extname ⟨pre ++ E.data⟩ = E := by
  rcases hE with hE | ⟨t, hEd, htd, hts⟩
  · subst hE
    unfold extname
    rw [show pre ++ ("" : String).data = pre from List.append_nil pre]
    rw [lastSegment_of_no_slash pre hslash, extnameCore_of_no_dot pre hdot]
  · unfold extname
    rw [show (⟨pre ++ E.data⟩ : String).data = pre ++ E.data from rfl, hEd]
    have hall : ∀ c ∈ pre ++ '.' :: t, c ≠ '/' := by
      intro c hc
      rcases List.mem_append.mp hc with h | h
      · exact hslash c h
      · rcases List.mem_cons.mp h with h | h
        · rw [h]; decide
        · exact hts c h
    rw [lastSegment_of_no_slash _ hall, extnameCore_append pre t hne hdot htd]
    rw [← hEd]

/-- Claim C10: `generateUniqueFilename` returns a name that ends with exactly
the original's extension, and — when the random token and timestamp contain
no '.' or '/' (as `Date.now()` digits and the base-36 token always do) and
the original's base name contains no extension separator — video-file
validity is preserved: `isValidVideoFile (generateUniqueFilename name)`
equals `isValidVideoFile name`. -/
theorem claim_C10_rename_preserves_validity :
    ∀ ts rand name : String,
      (∃ pre : String,
        generateUniqueFilename ts rand name = pre ++ extname name) ∧
      ('.' ∉ ts.data → '/' ∉ ts.data → '.' ∉ rand.data → '/' ∉ rand.data →
        '.' ∉ (basenameMinusExt name (extname name)).data →
        isValidVideoFile (generateUniqueFilename ts rand name) =
          isValidVideoFile name) := by
  intro ts rand name
  constructor
  · exact ⟨basenameMinusExt name (extname name) ++ "_" ++ ts ++ "_" ++ rand, rfl⟩
  · intro htsd htss hrd hrs hB
    have hus : ("_" : String).data = ['_'] := rfl
    have hdata : (generateUniqueFilename ts rand name).data =
        ((basenameMinusExt name (extname name)).data ++
          '_' :: (ts.data ++ '_' :: rand.data)) ++ (extname name).data := by
      simp [generateUniqueFilename, hus, List.append_assoc]
    have hgen : generateUniqueFilename ts rand name =
        ⟨((basenameMinusExt name (extname name)).data ++
          '_' :: (ts.data ++ '_' :: rand.data)) ++ (extname name).data⟩ :=
      congrArg String.mk hdata
    have hpre_ne : (basenameMinusExt name (extname name)).data ++
        '_' :: (ts.data ++ '_' :: rand.data) ≠ [] := by
      simp
    have hpre_dot : '.' ∉ (basenameMinusExt name (extname name)).data ++
        '_' :: (ts.data ++ '_' :: rand.data) := by
      intro hc
      rcases List.mem_append.mp hc with h | h
      · exact hB h
      · rcases List.mem_cons.mp h with h | h
        · exact absurd h (by decide)
        · rcases List.mem_append.mp h with h | h
          · exact htsd h
          · rcases List.mem_cons.mp h with h | h
            · exact absurd h (by decide)
            · exact hrd h
    have hpre_slash : ∀ c ∈ (basenameMinusExt name (extname name)).data ++
        '_' :: (ts.data ++ '_' :: rand.data), c ≠ '/' := by
      intro c hc
      rcases List.mem_append.mp hc with h | h
      · exact basenameMinusExt_no_slash name (extname name) c h
      · rcases List.mem_cons.mp h with h | h
        · rw [h]; decide
        · rcases List.mem_append.mp h with h | h
          · exact fun hEq => htss (hEq ▸ h)
          · rcases List.mem_cons.mp h with h | h
            · rw [h]; decide
            · exact fun hEq => hrs (hEq ▸ h)
    have hext := extname_append_sepFree _ (extname name) hpre_ne hpre_dot
      hpre_slash (extname_shape name)
    rw [hgen]
    unfold isValidVideoFile
    rw [hext]

/-- Witness for C10 at a concrete upload: "My Video.MP4" renamed with
timestamp "1700" and token "abc123" still ends in ".MP4" and stays a valid
video file. -/
theorem claim_C10_witness :
    (∃ pre : String,
      generateUniqueFilename "1700" "abc123" "My Video.MP4" =
        pre ++ extname "My Video.MP4") ∧
    isValidVideoFile (generateUniqueFilename "1700" "abc123" "My Video.MP4") =
      isValidVideoFile "My Video.MP4" :=
  ⟨(claim_C10_rename_preserves_validity "1700" "abc123" "My Video.MP4").1,
    (claim_C10_rename_preserves_validity "1700" "abc123" "My Video.MP4").2
      (by decide) (by decide) (by decide) (by decide) (by decide)⟩

end BintuBot
